import Mathlib

/-
Verification of the descriptor-resolution and key-derivation-matching engine
of the bdk_wallet repository (src/wallet/src/descriptor/mod.rs).

The embedding is a shallow translation of the Rust source.  External
collaborators that the spec explicitly treats as opaque capabilities
(the secp256k1 curve provider, the miniscript descriptor grammar, the
checksum utility and the key-extraction machinery of `crate::keys`) are
modelled as parameters: structures of functions that every theorem
quantifies over.  Rust `panic!`/`expect` is modelled by the `err`
constructor of `Res String`, so that a theorem can speak about
reachability of panics.
-/

set_option maxHeartbeats 1000000

namespace Bdk

/-- Result type mirroring Rust `Result`; with a `String` error it also models a
panic raised by `expect` (the message is the `expect` message). -/
inductive Res (ε α : Type) where
  | err (e : ε)
  | ok (v : α)
  deriving DecidableEq

/-- BIP32 child number: one derivation step, either normal (unhardened) or
hardened, carrying its index. -/
inductive ChildNumber where
  | normal (index : Nat)
  | hardened (index : Nat)
  deriving DecidableEq

/-- Mirrors `ChildNumber::is_hardened` of rust-bitcoin. -/
def ChildNumber.is_hardened : ChildNumber → Bool
  | .normal _ => false
  | .hardened _ => true

/-- A BIP32 derivation path is a sequence of child numbers. -/
abbrev DerivationPath := List ChildNumber

/-- Fingerprint of a root key (4 bytes in the implementation), kept abstract as
a natural number. -/
abbrev Fingerprint := Nat

/-- Network kind carried by extended keys (rust-bitcoin `NetworkKind`). -/
inductive NetworkKind where
  | main
  | test
  deriving DecidableEq

/-- The closed set of network tags (rust-bitcoin `Network`). -/
inductive Network where
  | bitcoin
  | testnet
  | testnet4
  | signet
  | regtest
  deriving DecidableEq

/-- Mirrors `From<Network> for NetworkKind`: mainnet maps to `main`, every
other network to `test`. -/
def Network.kind : Network → NetworkKind
  | .bitcoin => .main
  | _ => .test

/-- Wildcard marker of an extended descriptor key (miniscript `Wildcard`). -/
inductive Wildcard where
  | none
  | unhardened
  | hardened
  deriving DecidableEq

/-- An extended key: the network tag it carries plus its (abstract) key
material.  Models rust-bitcoin `Xpub`/`Xpriv`, whose `network` field the
template canonicalizer rewrites. -/
structure XKey (α : Type) where
  network : NetworkKind
  key : α
  deriving DecidableEq

/-- Miniscript `DescriptorXKey`: optional origin (fingerprint and path from the
root), the extended key itself, its derivation path and wildcard marker. -/
structure DescriptorXKey (α : Type) where
  origin : Option (Fingerprint × DerivationPath)
  xkey : XKey α
  derivation_path : DerivationPath
  wildcard : Wildcard
  deriving DecidableEq

/-- Miniscript `DescriptorMultiXKey`: the multipath form of an extended key,
carrying several parallel derivation paths. -/
structure DescriptorMultiXKey (α : Type) where
  origin : Option (Fingerprint × DerivationPath)
  xkey : XKey α
  derivation_paths : List DerivationPath
  wildcard : Wildcard
  deriving DecidableEq

/-- Miniscript `SinglePubKey`: a full public key or an x-only public key, both
kept abstract. -/
inductive SinglePubKey (Pk XOnly : Type) where
  | FullKey (pk : Pk)
  | XOnly (pk : XOnly)
  deriving DecidableEq

/-- Miniscript `DescriptorPublicKey`: a fixed single key, a single-path
extended public key, or a multipath extended public key. -/
inductive DescriptorPublicKey (Key Pk XOnly : Type) where
  | Single (origin : Option (Fingerprint × DerivationPath)) (key : SinglePubKey Pk XOnly)
  | XPub (x : DescriptorXKey Key)
  | MultiXPub (m : DescriptorMultiXKey Key)
  deriving DecidableEq

/-- Miniscript `DescriptorSecretKey`: a single private key (which carries a
network tag), a single-path extended private key, or a multipath extended
private key. -/
inductive DescriptorSecretKey (SK : Type) where
  | Single (sk : XKey SK)
  | XPrv (x : DescriptorXKey SK)
  | MultiXPrv (m : DescriptorMultiXKey SK)
  deriving DecidableEq

/-- Miniscript `DescriptorType`: the structural classification of a
descriptor, exactly the variants consulted by the source file. -/
inductive DescriptorType where
  | Bare
  | Sh
  | Pkh
  | Wpkh
  | ShWpkh
  | Wsh
  | ShWsh
  | ShSortedMulti
  | ShWshSortedMulti
  | WshSortedMulti
  | Tr
  deriving DecidableEq

/-- Modelled from the spec: the descriptor grammar (miniscript) is an external
collaborator consumed as "an abstract key-parameterized script tree"
supporting key enumeration in the grammar's own order, structural
classification, multipath detection and sanity checking.  `keys` is the
key-enumeration order used by `for_each_key`/`for_any_key`; `desc_type` is the
structural class; `sanity_error` is the outcome of the grammar's own
`sanity_check` (`none` means the check passes). -/
structure Descriptor (Key Pk XOnly : Type) where
  keys : List (DescriptorPublicKey Key Pk XOnly)
  desc_type : DescriptorType
  sanity_error : Option String
  deriving DecidableEq

/-- A derived (concrete) descriptor: the source descriptor resolved at one
derivation index, as produced by `at_derivation_index`. -/
structure Derived (Key Pk XOnly : Type) where
  source : Descriptor Key Pk XOnly
  index : Nat
  deriving DecidableEq

/-- Structural class of a derived descriptor; derivation at an index does not
change the structural class. -/
def Derived.desc_type {Key Pk XOnly : Type} (d : Derived Key Pk XOnly) : DescriptorType :=
  d.source.desc_type

/-- Key-map pairing public-key placeholders with their secret counterparts. -/
abbrev KeyMap (Key SK Pk XOnly : Type) :=
  List (DescriptorPublicKey Key Pk XOnly × DescriptorSecretKey SK)

/-- Key error surface (`crate::keys::KeyError`), with the variant the source
matches on plus a generic carrier for the others. -/
inductive KeyError where
  | InvalidNetwork
  | Message (msg : String)
  deriving DecidableEq

/-- Error surface of the descriptor module (`DescriptorError`). -/
inductive DescriptorError where
  | InvalidDescriptorChecksum
  | HardenedDerivationXpub
  | Key (e : KeyError)
  | Miniscript (msg : String)
  deriving DecidableEq

/-- Modelled from the spec: the external Key/Curve provider, consumed as
"derive child public key from parent + path; compute key fingerprint".
`ckd_pub` derives one unhardened child, `public_key`/`to_x_only` give the
byte representations compared byte-for-byte, `xkey_fingerprint` computes a
key's own fingerprint. -/
structure SecpCtx (Key Pk XOnly : Type) where
  ckd_pub : Key → Nat → Key
  public_key : Key → Pk
  to_x_only : Key → XOnly
  xkey_fingerprint : Key → Fingerprint

/-- Modelled from the spec: the grammar's script-extraction capability on a
concrete (derived) descriptor: the output script (`script_pubkey`) and the
explicit redeem/witness script (`explicit_script`). -/
structure GrammarOps (Key Pk XOnly Script : Type) where
  script_pubkey : Derived Key Pk XOnly → Script
  explicit_script : Derived Key Pk XOnly → Script

/-- Script context classes used by the key-extraction machinery
(`miniscript::Tap`, `Segwitv0`, `Legacy`). -/
inductive ScriptClass where
  | tap
  | segwitv0
  | legacy
  deriving DecidableEq

/-- Modelled from the spec: repository capabilities that live outside the
provided source file.  `calc_checksum` is the checksum utility ("a short
deterministic checksum over descriptor text", a pure function that can reject
invalid characters); `parse_descriptor` and `print_descriptor` are the
grammar's checksum-stripped text round-trip; `extract_networks` is the
`crate::keys` machinery computing "the set of networks for which that key is
valid" under a script context. -/
structure ExternalOps (Key SK Pk XOnly : Type) where
  calc_checksum : List Char → Res DescriptorError (List Char)
  parse_descriptor :
    List Char → Res DescriptorError (Descriptor Key Pk XOnly × KeyMap Key SK Pk XOnly)
  print_descriptor : Descriptor Key Pk XOnly → List Char
  extract_networks :
    ScriptClass → DescriptorPublicKey Key Pk XOnly → Res DescriptorError (List Network)

/-- A transaction output: its value and output script. -/
structure TxOut (Script : Type) where
  value : Nat
  script_pubkey : Script
  deriving DecidableEq

/-- The parts of a PSBT input consumed by the matcher: the HD key-provenance
map, the taproot key-origin map, and the optional redeem/witness scripts.
The map fields carry the maps' entry sequences (BTreeMap iteration order). -/
structure PsbtInput (Pk XOnly Script Leaf : Type) where
  bip32_derivation : List (Pk × (Fingerprint × DerivationPath))
  tap_key_origins : List (XOnly × (List Leaf × (Fingerprint × DerivationPath)))
  redeem_script : Option Script
  witness_script : Option Script
  deriving DecidableEq

section Model

variable {Key SK Pk XOnly Script Leaf : Type}

/-- Mirrors `DescriptorPublicKey::has_wildcard`: a key has a wildcard when its
wildcard marker is not `None`; single fixed keys never do. -/
def DescriptorPublicKey.has_wildcard : DescriptorPublicKey Key Pk XOnly → Bool
  | .Single _ _ => false
  | .XPub x => decide (x.wildcard ≠ Wildcard.none)
  | .MultiXPub m => decide (m.wildcard ≠ Wildcard.none)

/-- Mirrors `Descriptor::has_wildcard` (for-any-key over the keys). -/
def Descriptor.has_wildcard (d : Descriptor Key Pk XOnly) : Bool :=
  d.keys.any DescriptorPublicKey.has_wildcard

/-- Mirrors `Descriptor::is_multipath`: some key is a multipath key. -/
def Descriptor.is_multipath (d : Descriptor Key Pk XOnly) : Bool :=
  d.keys.any fun k => match k with
    | .MultiXPub _ => true
    | _ => false

/-- Mirrors `DescriptorMeta::is_witness` (source lines 413-423): membership of
the structural class in the segwit-v0 families. -/
def Descriptor.is_witness (d : Descriptor Key Pk XOnly) : Bool :=
  match d.desc_type with
  | .Wpkh | .ShWpkh | .Wsh | .ShWsh | .ShWshSortedMulti | .WshSortedMulti => true
  | _ => false

/-- Mirrors `DescriptorMeta::is_taproot` (source lines 425-427). -/
def Descriptor.is_taproot (d : Descriptor Key Pk XOnly) : Bool :=
  decide (d.desc_type = DescriptorType.Tr)

/-- Mirrors `DescriptorMeta::get_extended_keys` (source lines 429-441):
collect the single-path extended public keys in enumeration order. -/
def Descriptor.get_extended_keys (d : Descriptor Key Pk XOnly) : List (DescriptorXKey Key) :=
  d.keys.filterMap fun k => match k with
    | .XPub x => some x
    | _ => none

/-- Mirrors `XKeyUtils::root_fingerprint` (source lines 373-383): the declared
origin fingerprint when present, otherwise the fingerprint of the key
material itself. -/
def DescriptorXKey.root_fingerprint (ctx : SecpCtx Key Pk XOnly) (x : DescriptorXKey Key) :
    Fingerprint :=
  match x.origin with
  | some (fingerprint, _) => fingerprint
  | none => ctx.xkey_fingerprint x.xkey.key

/-- Modelled from the spec: rust-bitcoin `Xpub::derive_pub`, the external
"derive child public key from parent + path" capability; public derivation of
a hardened step is impossible ("hardened (requires the secret key)"), which
the implementation reports as an error, so the result is an `Option`. -/
def derive_pub (ctx : SecpCtx Key Pk XOnly) (k : Key) : DerivationPath → Option Key
  | [] => some k
  | .normal i :: rest => derive_pub ctx (ctx.ckd_pub k i) rest
  | .hardened _ :: _ => none

/-- Modelled from the spec: miniscript `DescriptorXKey::matches`, the
grammar's key-matching capability — "the descriptor key's own fixed prefix
path must be a literal prefix of the evidence path (component-wise equality on
the overlapping steps)".  The fixed prefix is the origin path followed by the
key's derivation path; for a wildcard key it must equal the evidence path
with its final step removed, for a fixed key the whole evidence path; on
success the matched prefix is returned. -/
def DescriptorXKey.matches (ctx : SecpCtx Key Pk XOnly) (x : DescriptorXKey Key)
    (fingerprint : Fingerprint) (path : DerivationPath) : Option DerivationPath :=
  let compare_fingerprint :=
    match x.origin with
    | some (f, _) => f
    | none => ctx.xkey_fingerprint x.xkey.key
  let compare_path :=
    match x.origin with
    | some (_, p) => p ++ x.derivation_path
    | none => x.derivation_path
  let path_excluding_wildcard :=
    if x.wildcard ≠ Wildcard.none ∧ path ≠ [] then path.dropLast else path
  if compare_fingerprint = fingerprint ∧ compare_path = path_excluding_wildcard then
    some path_excluding_wildcard
  else
    none

/-- Modelled from the spec: miniscript `Descriptor::at_derivation_index`, the
grammar's "derivation-at-fixed-index" capability.  It fails when the
descriptor contains a hardened wildcard, a multipath key, or when the index
does not fit an unhardened child number; otherwise it resolves every key at
the given index. -/
def Descriptor.at_derivation_index (d : Descriptor Key Pk XOnly) (i : Nat) :
    Option (Derived Key Pk XOnly) :=
  if d.keys.any fun k => match k with
      | .XPub x =>
        decide (x.wildcard = Wildcard.hardened) ||
          (decide (x.wildcard = Wildcard.unhardened) && decide (2 ^ 31 ≤ i))
      | .MultiXPub _ => true
      | .Single _ _ => false
  then none
  else some ⟨d, i⟩

/-- Mirrors `verify_key` inside `derive_from_psbt_key_origins` (source lines
449-462) after the (possibly panicking) re-derivation has produced a key:
compare the derived public key byte-for-byte with the expected one. -/
def verify_derived (ctx : SecpCtx Key Pk XOnly) [DecidableEq Pk] [DecidableEq XOnly]
    (derived : Key) : SinglePubKey Pk XOnly → Bool
  | .FullKey pk => decide (ctx.public_key derived = pk)
  | .XOnly pk => decide (ctx.to_x_only derived = pk)

/-- Evidence map keyed by root fingerprint, as consumed by
`derive_from_psbt_key_origins`. -/
abbrev KeyOrigins (Pk XOnly : Type) :=
  List (Fingerprint × (DerivationPath × SinglePubKey Pk XOnly))

/-- Lookup in a fingerprint-keyed association list (BTreeMap `get_key_value`,
keys unique). -/
def lookup_fp {α : Type} : List (Fingerprint × α) → Fingerprint → Option α
  | [], _ => none
  | (g, v) :: rest, f => if g = f then some v else lookup_fp rest f

/-- Insertion into a fingerprint-keyed association list with BTreeMap
semantics: an existing binding for the key is replaced. -/
def insert_fp {α : Type} : List (Fingerprint × α) → Fingerprint → α → List (Fingerprint × α)
  | [], f, v => [(f, v)]
  | (g, w) :: rest, f, v =>
    if g = f then (g, v) :: rest else (g, w) :: insert_fp rest f v

/-- Mirrors `collect::<BTreeMap<_, _>>()` over a sequence of
fingerprint-keyed entries: fold the entries into a map, later same-key
entries overwriting earlier ones. -/
def collect_fp_map {α : Type} (l : List (Fingerprint × α)) : List (Fingerprint × α) :=
  l.foldl (fun m e => insert_fp m e.1 e.2) []

/-- The body of the `for_any_key` loop of `derive_from_psbt_key_origins`
(source lines 467-521), walking the keys in enumeration order with
short-circuit.  For each single-path extended key: look its root fingerprint
up in the evidence, run `matches`, take the path suffix beyond the matched
prefix, re-derive (panicking — `err` — on a hardened step, the `expect` at
line 454) and verify the derived key, then accept a one-step unhardened
suffix for a wildcard key or an empty suffix for a fixed key. -/
def key_origins_loop (ctx : SecpCtx Key Pk XOnly) [DecidableEq Pk] [DecidableEq XOnly]
    (key_origins : KeyOrigins Pk XOnly) :
    List (DescriptorPublicKey Key Pk XOnly) → Res String (Option Nat)
  | [] => .ok none
  | .XPub xpub :: rest =>
    let root_fingerprint := xpub.root_fingerprint ctx
    match lookup_fp key_origins root_fingerprint with
    | none => key_origins_loop ctx key_origins rest
    | some (path, expected) =>
      match xpub.matches ctx root_fingerprint path with
      | none => key_origins_loop ctx key_origins rest
      | some pre =>
        let derive_path := path.drop pre.length
        match derive_pub ctx xpub.xkey.key (xpub.derivation_path ++ derive_path) with
        | none => .err "The path should never contain hardened derivation steps"
        | some derived =>
          if verify_derived ctx derived expected then
            if xpub.wildcard ≠ Wildcard.none ∧ derive_path.length = 1 then
              match derive_path with
              | [ChildNumber.normal index] => .ok (some index)
              | _ => key_origins_loop ctx key_origins rest
            else if xpub.wildcard = Wildcard.none ∧ derive_path = [] then
              .ok (some 0)
            else
              key_origins_loop ctx key_origins rest
          else
            key_origins_loop ctx key_origins rest
  | _ :: rest => key_origins_loop ctx key_origins rest

/-- Mirrors `DescriptorMeta::derive_from_psbt_key_origins` (source lines
443-527): run the key loop; on a found index, resolve the descriptor at that
index (the `expect` at line 525 is a panic, modelled as `err`). -/
def derive_from_psbt_key_origins (ctx : SecpCtx Key Pk XOnly)
    [DecidableEq Pk] [DecidableEq XOnly] (d : Descriptor Key Pk XOnly)
    (key_origins : KeyOrigins Pk XOnly) : Res String (Option (Derived Key Pk XOnly)) :=
  match key_origins_loop ctx key_origins d.keys with
  | .err e => .err e
  | .ok none => .ok none
  | .ok (some path) =>
    match d.at_derivation_index path with
    | none => .err "We ignore hardened wildcards"
    | some derived => .ok (some derived)

/-- Mirrors `DescriptorMeta::derive_from_hd_keypaths` (source lines 529-545):
re-key the HD evidence by root fingerprint (collecting into a map) and run
the generic matcher. -/
def derive_from_hd_keypaths (ctx : SecpCtx Key Pk XOnly)
    [DecidableEq Pk] [DecidableEq XOnly] (d : Descriptor Key Pk XOnly)
    (hd_keypaths : List (Pk × (Fingerprint × DerivationPath))) :
    Res String (Option (Derived Key Pk XOnly)) :=
  derive_from_psbt_key_origins ctx d
    (collect_fp_map (hd_keypaths.map fun e => (e.2.1, (e.2.2, SinglePubKey.FullKey e.1))))

/-- Mirrors `DescriptorMeta::derive_from_tap_key_origins` (source lines
547-558): re-key the taproot evidence by root fingerprint (dropping the leaf
hashes) and run the generic matcher with x-only expected keys. -/
def derive_from_tap_key_origins (ctx : SecpCtx Key Pk XOnly)
    [DecidableEq Pk] [DecidableEq XOnly] (d : Descriptor Key Pk XOnly)
    (tap_key_origins : List (XOnly × (List Leaf × (Fingerprint × DerivationPath)))) :
    Res String (Option (Derived Key Pk XOnly)) :=
  derive_from_psbt_key_origins ctx d
    (collect_fp_map (tap_key_origins.map fun e => (e.2.2.1, (e.2.2.2, SinglePubKey.XOnly e.1))))

/-- Mirrors `DescriptorMeta::derive_from_psbt_input` (source lines 560-608):
HD-keypath matching, then taproot key-origin matching, then — only for a
wildcard-free descriptor — the fixed-index fallback at index 0 with its
per-class script-equality checks (the `expect` at line 577 is a panic,
modelled as `err`). -/
def derive_from_psbt_input (ctx : SecpCtx Key Pk XOnly)
    [DecidableEq Pk] [DecidableEq XOnly] [DecidableEq Script]
    (gops : GrammarOps Key Pk XOnly Script) (d : Descriptor Key Pk XOnly)
    (psbt_input : PsbtInput Pk XOnly Script Leaf) (utxo : Option (TxOut Script)) :
    Res String (Option (Derived Key Pk XOnly)) :=
  match derive_from_hd_keypaths ctx d psbt_input.bip32_derivation with
  | .err e => .err e
  | .ok (some derived) => .ok (some derived)
  | .ok none =>
    match derive_from_tap_key_origins ctx d psbt_input.tap_key_origins with
    | .err e => .err e
    | .ok (some derived) => .ok (some derived)
    | .ok none =>
      if d.has_wildcard then
        .ok none
      else
        match d.at_derivation_index 0 with
        | none => .err "0 is not hardened"
        | some descriptor =>
          if descriptor.desc_type = DescriptorType.Pkh ∨
              descriptor.desc_type = DescriptorType.Wpkh ∨
              descriptor.desc_type = DescriptorType.ShWpkh ∨
              descriptor.desc_type = DescriptorType.Tr then
            match utxo with
            | some u =>
              if gops.script_pubkey descriptor = u.script_pubkey then .ok (some descriptor)
              else .ok none
            | none => .ok none
          else if descriptor.desc_type = DescriptorType.Bare ∨
              descriptor.desc_type = DescriptorType.Sh ∨
              descriptor.desc_type = DescriptorType.ShSortedMulti then
            match psbt_input.redeem_script with
            | some rs =>
              if gops.explicit_script descriptor = rs then .ok (some descriptor)
              else .ok none
            | none => .ok none
          else if descriptor.desc_type = DescriptorType.Wsh ∨
              descriptor.desc_type = DescriptorType.ShWsh ∨
              descriptor.desc_type = DescriptorType.ShWshSortedMulti ∨
              descriptor.desc_type = DescriptorType.WshSortedMulti then
            match psbt_input.witness_script with
            | some ws =>
              if gops.explicit_script descriptor = ws then .ok (some descriptor)
              else .ok none
            | none => .ok none
          else
            .ok none

/-- The predicate of the hardened-derivation scan in `check_wallet_descriptor`
(source lines 298-310): only single-path extended keys are inspected. -/
def hardened_xpub : DescriptorPublicKey Key Pk XOnly → Bool
  | .XPub x =>
    decide (x.wildcard = Wildcard.hardened) || x.derivation_path.any ChildNumber.is_hardened
  | _ => false

/-- Mirrors `check_wallet_descriptor` (source lines 294-328): reject hardened
derivation, then multipath descriptors, then delegate to the grammar's sanity
check. -/
def check_wallet_descriptor (d : Descriptor Key Pk XOnly) : Res DescriptorError Unit :=
  if d.keys.any hardened_xpub then
    .err .HardenedDerivationXpub
  else if d.is_multipath then
    .err (.Miniscript "`check_wallet_descriptor` must not contain multipath keys")
  else
    match d.sanity_error with
    | some e => .err (.Miniscript e)
    | none => .ok ()

/-- The script context the key-extraction is run under, mirroring the
taproot/witness/legacy dispatch of the pair impl (source lines 154-166). -/
def script_class (d : Descriptor Key Pk XOnly) : ScriptClass :=
  if d.is_taproot then .tap
  else if d.is_witness then .segwitv0
  else .legacy

/-- The network validation of the `(ExtendedDescriptor, KeyMap)` impl of
`IntoWalletDescriptor` (source lines 150-210): walk the keys in enumeration
order; extraction failures and the first key whose valid-network set lacks
the target short-circuit the walk. -/
def check_networks (ops : ExternalOps Key SK Pk XOnly) (cls : ScriptClass)
    (network : Network) : List (DescriptorPublicKey Key Pk XOnly) → Res DescriptorError Unit
  | [] => .ok ()
  | k :: rest =>
    match ops.extract_networks cls k with
    | .err e => .err e
    | .ok networks =>
      if network ∈ networks then check_networks ops cls network rest
      else .err (.Key .InvalidNetwork)

/-- Mirrors `IntoWalletDescriptor for (ExtendedDescriptor, KeyMap)` (source
lines 136-214): check the network for the keys, then return the input pair
unchanged. -/
def into_wallet_descriptor_pair (ops : ExternalOps Key SK Pk XOnly)
    (d : Descriptor Key Pk XOnly) (keymap : KeyMap Key SK Pk XOnly) (network : Network) :
    Res DescriptorError (Descriptor Key Pk XOnly × KeyMap Key SK Pk XOnly) :=
  match check_networks ops (script_class d) network d.keys with
  | .err e => .err e
  | .ok _ => .ok (d, keymap)

/-- Splitting at the first occurrence of a separator, mirroring Rust
`str::split_once`. -/
def split_once (sep : Char) : List Char → Option (List Char × List Char)
  | [] => none
  | c :: rest =>
    if c = sep then some ([], rest)
    else
      match split_once sep rest with
      | none => none
      | some (a, b) => some (c :: a, b)

/-- Mirrors `IntoWalletDescriptor for &str` (source lines 84-104): when the
text contains a `#` separator, recompute the checksum of the prefix and
reject a mismatching suffix; then parse and run the pair validation. -/
def into_wallet_descriptor_str (ops : ExternalOps Key SK Pk XOnly) (s : List Char)
    (network : Network) :
    Res DescriptorError (Descriptor Key Pk XOnly × KeyMap Key SK Pk XOnly) :=
  let stripped : Res DescriptorError (List Char) :=
    match split_once '#' s with
    | some (desc, original_checksum) =>
      match ops.calc_checksum desc with
      | .err e => .err e
      | .ok checksum =>
        if original_checksum ≠ checksum then .err .InvalidDescriptorChecksum
        else .ok desc
    | none => .ok s
  match stripped with
  | .err e => .err e
  | .ok desc =>
    match ops.parse_descriptor desc with
    | .err e => .err e
    | .ok (d, keymap) => into_wallet_descriptor_pair ops d keymap network

/-- Output of a descriptor template: descriptor, key-map and the set of
networks the template is valid for (`DescriptorTemplateOut`). -/
abbrev DescriptorTemplateOut (Key SK Pk XOnly : Type) :=
  Descriptor Key Pk XOnly × KeyMap Key SK Pk XOnly × List Network

/-- The `Translator::pk` of the template impl (source lines 229-249): retag a
single-path extended public key with the target network; every other key kind
passes through unchanged. -/
def template_translate_pk (network : Network) :
    DescriptorPublicKey Key Pk XOnly → DescriptorPublicKey Key Pk XOnly
  | .XPub x => .XPub { x with xkey := { x.xkey with network := network.kind } }
  | other => other

/-- The key-map fixup of the template impl (source lines 271-287): retag both
halves of an (xpub, xprv) pair, retag a single secret key, leave every other
pair unchanged. -/
def template_fix_pair (network : Network) :
    DescriptorPublicKey Key Pk XOnly × DescriptorSecretKey SK →
      DescriptorPublicKey Key Pk XOnly × DescriptorSecretKey SK
  | (.XPub x, .XPrv y) =>
    (.XPub { x with xkey := { x.xkey with network := network.kind } },
      .XPrv { y with xkey := { y.xkey with network := network.kind } })
  | (k, .Single sk) => (k, .Single { sk with network := network.kind })
  | p => p

/-- Mirrors `IntoWalletDescriptor for DescriptorTemplateOut` (source lines
216-291): reject a target network outside the carried set, then retag the
descriptor's keys and the key-map. -/
def into_wallet_descriptor_template (t : DescriptorTemplateOut Key SK Pk XOnly)
    (network : Network) :
    Res DescriptorError (Descriptor Key Pk XOnly × KeyMap Key SK Pk XOnly) :=
  let (desc, keymap, networks) := t
  if network ∈ networks then
    .ok ({ desc with keys := desc.keys.map (template_translate_pk network) },
      keymap.map (template_fix_pair network))
  else
    .err (.Key .InvalidNetwork)

/-- Follows the spec's words (§4.3 step 1): one candidate key is accepted at
index `i` when its root fingerprint has evidence, the key's fixed prefix
matches the evidence path, re-deriving the descriptor's own path extended by
the suffix yields a key equal byte-for-byte to the expected one, and either
the key is an unhardened-wildcard key with a one-step non-hardened suffix
resolving the wildcard to `i`, or a fixed key with an empty suffix (then the
index is 0). -/
def spec_key_accepts (ctx : SecpCtx Key Pk XOnly) [DecidableEq Pk] [DecidableEq XOnly]
    (key_origins : KeyOrigins Pk XOnly) (x : DescriptorXKey Key) (i : Nat) : Prop :=
  ∃ path expected,
    lookup_fp key_origins (x.root_fingerprint ctx) = some (path, expected) ∧
    ∃ pre, x.matches ctx (x.root_fingerprint ctx) path = some pre ∧
      ∃ derived,
        derive_pub ctx x.xkey.key (x.derivation_path ++ path.drop pre.length) = some derived ∧
        verify_derived ctx derived expected = true ∧
        ((x.wildcard = Wildcard.unhardened ∧ path.drop pre.length = [ChildNumber.normal i]) ∨
          (x.wildcard = Wildcard.none ∧ path.drop pre.length = [] ∧ i = 0))

/-- Follows the spec's words (§4.3 step 1, the rejection side): one candidate
key yields no match when its fingerprint has no evidence, or the evidence
path does not extend the key's fixed prefix by at most a final step, or the
re-derived public key differs from the expected key. -/
def spec_key_rejects (ctx : SecpCtx Key Pk XOnly) [DecidableEq Pk] [DecidableEq XOnly]
    (key_origins : KeyOrigins Pk XOnly) (x : DescriptorXKey Key) : Prop :=
  lookup_fp key_origins (x.root_fingerprint ctx) = none ∨
  ∃ path expected,
    lookup_fp key_origins (x.root_fingerprint ctx) = some (path, expected) ∧
    (x.matches ctx (x.root_fingerprint ctx) path = none ∨
      ∃ pre, x.matches ctx (x.root_fingerprint ctx) path = some pre ∧
        ∃ derived,
          derive_pub ctx x.xkey.key (x.derivation_path ++ path.drop pre.length) = some derived ∧
          verify_derived ctx derived expected = false)

/-- Follows the spec's words (§4.3 step 3): the fixed-index fallback accepts
exactly when the structural class and the available evidence agree — a known
spent output whose script equals the derived script for single-key classes, a
present and equal redeem script for bare/legacy classes, a present and equal
witness script for segwit-script classes. -/
def spec_fallback_accepts [DecidableEq Script] (gops : GrammarOps Key Pk XOnly Script)
    (d : Descriptor Key Pk XOnly) (psbt_input : PsbtInput Pk XOnly Script Leaf)
    (utxo : Option (TxOut Script)) : Prop :=
  ((d.desc_type = DescriptorType.Pkh ∨ d.desc_type = DescriptorType.Wpkh ∨
      d.desc_type = DescriptorType.ShWpkh ∨ d.desc_type = DescriptorType.Tr) ∧
    ∃ u, utxo = some u ∧ gops.script_pubkey ⟨d, 0⟩ = u.script_pubkey) ∨
  ((d.desc_type = DescriptorType.Bare ∨ d.desc_type = DescriptorType.Sh ∨
      d.desc_type = DescriptorType.ShSortedMulti) ∧
    ∃ rs, psbt_input.redeem_script = some rs ∧ gops.explicit_script ⟨d, 0⟩ = rs) ∨
  ((d.desc_type = DescriptorType.Wsh ∨ d.desc_type = DescriptorType.ShWsh ∨
      d.desc_type = DescriptorType.ShWshSortedMulti ∨
      d.desc_type = DescriptorType.WshSortedMulti) ∧
    ∃ ws, psbt_input.witness_script = some ws ∧ gops.explicit_script ⟨d, 0⟩ = ws)

end Model

section Concrete

/-- Concrete key/curve provider used to evaluate the model on explicit
inputs: key material is the list of child indices derived so far, the public
key is the key material itself, all fingerprints are 0. -/
def ctx0 : SecpCtx (List Nat) (List Nat) (List Nat) where
  ckd_pub := fun k i => k ++ [i]
  public_key := fun k => k
  to_x_only := fun k => k
  xkey_fingerprint := fun _ => 0

/-- Concrete grammar script capability: the output script of a derived
descriptor is its index, the explicit script is the index plus 100. -/
def gops0 : GrammarOps (List Nat) (List Nat) (List Nat) Nat where
  script_pubkey := fun dd => dd.index
  explicit_script := fun dd => dd.index + 100

/-- Concrete parse-target descriptor for the round-trip instances. -/
def d8 : Descriptor (List Nat) (List Nat) (List Nat) :=
  ⟨[], DescriptorType.Pkh, none⟩

/-- Concrete external capabilities for evaluating the canonicalizer. -/
def ops0 : ExternalOps (List Nat) Unit (List Nat) (List Nat) where
  calc_checksum := fun _ => .ok ['c']
  parse_descriptor := fun s =>
    if s = ['d'] then .ok (d8, []) else .err (.Miniscript "unparsable")
  print_descriptor := fun _ => ['d']
  extract_networks := fun _ _ =>
    .ok [Network.bitcoin, Network.testnet, Network.testnet4, Network.signet, Network.regtest]

/-- Concrete external capabilities whose keys are valid on mainnet only. -/
def ops7 : ExternalOps (List Nat) Unit (List Nat) (List Nat) where
  calc_checksum := fun _ => .ok ['c']
  parse_descriptor := fun _ => .err (.Miniscript "unparsable")
  print_descriptor := fun _ => ['d']
  extract_networks := fun _ _ => .ok [Network.bitcoin]

/-- Concrete descriptor with one fixed single public key. -/
def d7 : Descriptor (List Nat) (List Nat) (List Nat) :=
  ⟨[.Single none (.FullKey [1])], DescriptorType.Wpkh, none⟩

/-- Concrete descriptor with one unhardened-wildcard extended key whose
origin fingerprint is 7 and whose fixed path is 1/2. -/
def d1 : Descriptor (List Nat) (List Nat) (List Nat) :=
  ⟨[.XPub ⟨some (7, [ChildNumber.normal 1]), ⟨.test, []⟩, [ChildNumber.normal 2],
      Wildcard.unhardened⟩],
    DescriptorType.Wpkh, none⟩

/-- Concrete PSBT input carrying HD evidence for `d1` at wildcard index 5. -/
def in1 : PsbtInput (List Nat) (List Nat) Nat Nat :=
  ⟨[([2, 5], (7, [ChildNumber.normal 1, ChildNumber.normal 2, ChildNumber.normal 5]))],
    [], none, none⟩

/-- Concrete descriptor with one hardened-wildcard single-path extended key. -/
def d2w : Descriptor (List Nat) (List Nat) (List Nat) :=
  ⟨[.XPub ⟨none, ⟨.test, []⟩, [], Wildcard.hardened⟩], DescriptorType.Wpkh, none⟩

/-- Concrete multipath key whose derivation paths contain a hardened step and
whose wildcard is hardened. -/
def m2c : DescriptorMultiXKey (List Nat) :=
  ⟨none, ⟨.test, []⟩, [[ChildNumber.hardened 0], [ChildNumber.hardened 1]], Wildcard.hardened⟩

/-- Concrete descriptor containing only the multipath key `m2c`. -/
def d2c : Descriptor (List Nat) (List Nat) (List Nat) :=
  ⟨[.MultiXPub m2c], DescriptorType.Wsh, none⟩

/-- Concrete wildcard-free multipath descriptor of single-key class. -/
def d5c : Descriptor (List Nat) (List Nat) (List Nat) :=
  ⟨[.MultiXPub ⟨none, ⟨.test, []⟩, [[ChildNumber.normal 0], [ChildNumber.normal 1]],
      Wildcard.none⟩],
    DescriptorType.Wpkh, none⟩

/-- Concrete wildcard-free single-key descriptor. -/
def d5w : Descriptor (List Nat) (List Nat) (List Nat) :=
  ⟨[.Single none (.FullKey [9])], DescriptorType.Wpkh, none⟩

/-- Concrete PSBT input with no evidence at all. -/
def in0 : PsbtInput (List Nat) (List Nat) Nat Nat :=
  ⟨[], [], none, none⟩

/-- Concrete spent output whose script is the one `gops0` assigns at index 0. -/
def u0 : TxOut Nat :=
  ⟨0, 0⟩

/-- Concrete single-path extended public key carried by a template, tagged
with the mainnet network kind. -/
def x6 : DescriptorXKey (List Nat) :=
  ⟨none, ⟨.main, [3]⟩, [ChildNumber.normal 0], Wildcard.unhardened⟩

/-- Concrete template descriptor containing `x6`. -/
def d6 : Descriptor (List Nat) (List Nat) (List Nat) :=
  ⟨[.XPub x6], DescriptorType.Wpkh, none⟩

/-- Concrete multipath extended public key carried by a template, tagged with
the mainnet network kind. -/
def m6c : DescriptorMultiXKey (List Nat) :=
  ⟨none, ⟨.main, [4]⟩, [[ChildNumber.normal 0], [ChildNumber.normal 1]], Wildcard.unhardened⟩

/-- Concrete template descriptor containing only the multipath key `m6c`. -/
def d6c : Descriptor (List Nat) (List Nat) (List Nat) :=
  ⟨[.MultiXPub m6c], DescriptorType.Wpkh, none⟩

/-- Concrete validated descriptor (accepted by `check_wallet_descriptor`):
one unhardened-wildcard key with origin fingerprint 7 and fixed path 0. -/
def d9 : Descriptor (List Nat) (List Nat) (List Nat) :=
  ⟨[.XPub ⟨some (7, []), ⟨.test, []⟩, [ChildNumber.normal 0], Wildcard.unhardened⟩],
    DescriptorType.Wpkh, none⟩

/-- Concrete adversarial evidence for `d9`: the fingerprint and fixed prefix
agree, but the final (wildcard) step of the evidence path is hardened. -/
def ko9 : KeyOrigins (List Nat) (List Nat) :=
  [(7, ([ChildNumber.normal 0, ChildNumber.hardened 1], SinglePubKey.FullKey [0]))]

end Concrete

section Theorems

variable {Key SK Pk XOnly Script Leaf : Type}

/-- C2 (amended): for every descriptor in which some single-path extended key
has a hardened wildcard or a hardened step in its derivation path,
`check_wallet_descriptor` returns `HardenedDerivationXpub`; the check runs
before the multipath and sanity checks (the conclusion holds for every value
of the multipath and sanity data).  A multipath descriptor whose single-path
extended keys are all free of hardened wildcards and hardened steps is
instead rejected by the multipath check with its `BadDescriptor` error. -/
theorem check_wallet_descriptor_rejects_hardened (d : Descriptor Key Pk XOnly) :
    ((∃ x, DescriptorPublicKey.XPub x ∈ d.keys ∧
        (x.wildcard = Wildcard.hardened ∨ ∃ c ∈ x.derivation_path, c.is_hardened = true)) →
      check_wallet_descriptor d = .err DescriptorError.HardenedDerivationXpub) ∧
    ((∀ x, DescriptorPublicKey.XPub x ∈ d.keys →
        x.wildcard ≠ Wildcard.hardened ∧ ∀ c ∈ x.derivation_path, c.is_hardened = false) →
      d.is_multipath = true →
      check_wallet_descriptor d = .err (DescriptorError.Miniscript
        "`check_wallet_descriptor` must not contain multipath keys")) := by
  constructor
  · intro h
    obtain ⟨x, hmem, hx⟩ := h
    have hany : d.keys.any hardened_xpub = true := by
      refine List.any_eq_true.mpr ⟨_, hmem, ?_⟩
      rcases hx with h1 | ⟨c, hc, hch⟩
      · simp [hardened_xpub, h1]
      · simp only [hardened_xpub, Bool.or_eq_true]
        exact Or.inr (List.any_eq_true.mpr ⟨c, hc, hch⟩)
    simp [check_wallet_descriptor, hany]
  · intro h hmulti
    have hany : d.keys.any hardened_xpub = false := by
      rw [List.any_eq_false]
      intro k hk
      cases k with
      | Single o s => simp [hardened_xpub]
      | MultiXPub m => simp [hardened_xpub]
      | XPub x =>
        obtain ⟨hwc, hsteps⟩ := h x hk
        simp only [hardened_xpub, Bool.or_eq_true, decide_eq_true_eq, List.any_eq_true,
          not_or]
        refine ⟨hwc, ?_⟩
        rintro ⟨c, hc, hch⟩
        rw [hsteps c hc] at hch
        exact Bool.false_ne_true hch
    simp [check_wallet_descriptor, hany, hmulti]

/-- C2 (counterexample): a descriptor whose only key is a multipath extended
key with a hardened wildcard (and hardened path steps) is not rejected with
`HardenedDerivationXpub` — `check_wallet_descriptor` returns the multipath
`BadDescriptor` error instead. -/
theorem check_wallet_descriptor_multipath_counterexample :
    (DescriptorPublicKey.MultiXPub m2c ∈ d2c.keys ∧ m2c.wildcard = Wildcard.hardened) ∧
      check_wallet_descriptor d2c = .err (DescriptorError.Miniscript
        "`check_wallet_descriptor` must not contain multipath keys") ∧
      check_wallet_descriptor d2c ≠ .err DescriptorError.HardenedDerivationXpub := by
  refine ⟨⟨?_, rfl⟩, rfl, ?_⟩
  · simp [d2c]
  · decide

/-- Witness for the amended C2 theorem, exercising both conclusions: a
concrete hardened-wildcard single-path key is rejected with
`HardenedDerivationXpub`, and a concrete hardened-free multipath descriptor
is rejected with the multipath error. -/
theorem check_wallet_descriptor_rejects_hardened_witness :
    check_wallet_descriptor d2w = .err DescriptorError.HardenedDerivationXpub ∧
      check_wallet_descriptor d5c = .err (DescriptorError.Miniscript
        "`check_wallet_descriptor` must not contain multipath keys") :=
  ⟨(check_wallet_descriptor_rejects_hardened d2w).1
      ⟨⟨none, ⟨.test, []⟩, [], Wildcard.hardened⟩, by simp [d2w], Or.inl rfl⟩,
    (check_wallet_descriptor_rejects_hardened d5c).2
      (fun x hx => absurd hx (by simp [d5c])) (by decide)⟩

/-- C3: for every input whose text splits at a `#` separator, if the
recomputed checksum of the prefix differs from the supplied suffix then
`into_wallet_descriptor` on text fails with `InvalidDescriptorChecksum`,
for every parser, key-extraction behaviour and target network — so before
any network or key inspection and regardless of the prefix's validity. -/
theorem into_wallet_descriptor_str_checksum_mismatch (ops : ExternalOps Key SK Pk XOnly)
    (network : Network) (s pre suf c : List Char)
    (hsplit : split_once '#' s = some (pre, suf))
    (hck : ops.calc_checksum pre = .ok c) (hne : suf ≠ c) :
    into_wallet_descriptor_str ops s network
      = .err DescriptorError.InvalidDescriptorChecksum := by
  simp only [into_wallet_descriptor_str, hsplit, hck]
  rw [if_pos hne]

/-- Witness for the C3 theorem at a concrete mismatching checksum. -/
theorem into_wallet_descriptor_str_checksum_mismatch_witness :
    into_wallet_descriptor_str ops0 ['d', '#', 'x'] Network.testnet
      = .err DescriptorError.InvalidDescriptorChecksum :=
  into_wallet_descriptor_str_checksum_mismatch ops0 Network.testnet ['d', '#', 'x']
    ['d'] ['x'] ['c'] (by decide) rfl (by decide)

/-- C4: `derive_from_psbt_input` tries HD-keypath matching first and taproot
key-origin matching second, and the first success is authoritative: an HD
success is returned whatever the remaining evidence (in particular whatever
fixed-index evidence — scripts and spent output — is present), and a taproot
success is returned whenever HD matching found nothing. -/
theorem derive_from_psbt_input_priority [DecidableEq Pk] [DecidableEq XOnly]
    [DecidableEq Script] (ctx : SecpCtx Key Pk XOnly)
    (gops : GrammarOps Key Pk XOnly Script) (d : Descriptor Key Pk XOnly)
    (psbt_input : PsbtInput Pk XOnly Script Leaf) (utxo : Option (TxOut Script)) :
    (∀ dd, derive_from_hd_keypaths ctx d psbt_input.bip32_derivation = .ok (some dd) →
        derive_from_psbt_input ctx gops d psbt_input utxo = .ok (some dd)) ∧
    (derive_from_hd_keypaths ctx d psbt_input.bip32_derivation = .ok none →
      ∀ dd, derive_from_tap_key_origins ctx d psbt_input.tap_key_origins = .ok (some dd) →
        derive_from_psbt_input ctx gops d psbt_input utxo = .ok (some dd)) := by
  constructor
  · intro dd h
    simp [derive_from_psbt_input, h]
  · intro h1 dd h2
    simp [derive_from_psbt_input, h1, h2]

/-- Witness for the C4 theorem: an HD-keypath success at index 5 is returned
even though no spent output is supplied. -/
theorem derive_from_psbt_input_priority_witness :
    derive_from_psbt_input ctx0 gops0 d1 in1 none = .ok (some ⟨d1, 5⟩) :=
  (derive_from_psbt_input_priority ctx0 gops0 d1 in1 none).1 ⟨d1, 5⟩ (by decide)

/-- C9: on a descriptor accepted by `check_wallet_descriptor`, adversarial
evidence whose path extends the key's fixed prefix by a hardened final step
drives `derive_from_psbt_key_origins` into the re-derivation `expect` — the
function panics instead of returning `Some` or `None`, refuting the claimed
totality; the concrete failing input is `d9` with evidence `ko9`. -/
theorem derive_from_psbt_key_origins_panic_reachable :
    check_wallet_descriptor d9 = .ok () ∧
      derive_from_psbt_key_origins ctx0 d9 ko9
        = .err "The path should never contain hardened derivation steps" := by
  constructor
  · decide
  · rfl

/-- Looking a fingerprint up after a map insertion finds the inserted value
exactly for the inserted fingerprint. -/
theorem lookup_fp_insert {α : Type} (m : List (Fingerprint × α)) (f g : Fingerprint) (v : α) :
    lookup_fp (insert_fp m f v) g = if f = g then some v else lookup_fp m g := by
  induction m with
  | nil => simp [insert_fp, lookup_fp]
  | cons e rest ih =>
    obtain ⟨a, w⟩ := e
    unfold insert_fp
    by_cases haf : a = f
    · subst haf
      rw [if_pos rfl]
      by_cases hag : a = g <;> simp [lookup_fp, hag]
    · rw [if_neg haf]
      by_cases hag : a = g
      · subst hag
        have hfg : ¬f = a := fun e => haf e.symm
        simp [lookup_fp, hfg]
      · simp [lookup_fp, hag, ih]

/-- Fingerprints present after an insertion are the old ones plus the
inserted one. -/
theorem mem_keys_insert_fp {α : Type} (m : List (Fingerprint × α)) (f g : Fingerprint) (v : α) :
    g ∈ (insert_fp m f v).map Prod.fst ↔ g ∈ m.map Prod.fst ∨ g = f := by
  induction m with
  | nil => simp [insert_fp]
  | cons e rest ih =>
    obtain ⟨a, w⟩ := e
    unfold insert_fp
    by_cases haf : a = f
    · subst haf
      rw [if_pos rfl]
      simp only [List.map_cons, List.mem_cons]
      tauto
    · rw [if_neg haf]
      simp only [List.map_cons, List.mem_cons, ih]
      tauto

/-- Insertion with replacement preserves distinctness of the fingerprints. -/
theorem nodup_keys_insert_fp {α : Type} (m : List (Fingerprint × α)) (f : Fingerprint) (v : α)
    (h : (m.map Prod.fst).Nodup) : ((insert_fp m f v).map Prod.fst).Nodup := by
  induction m with
  | nil => simp [insert_fp]
  | cons e rest ih =>
    obtain ⟨a, w⟩ := e
    simp only [List.map_cons, List.nodup_cons] at h
    unfold insert_fp
    by_cases haf : a = f
    · rw [if_pos haf]
      simpa [List.nodup_cons] using h
    · rw [if_neg haf]
      simp only [List.map_cons, List.nodup_cons]
      refine ⟨?_, ih h.2⟩
      rw [mem_keys_insert_fp]
      rintro (hm | he)
      · exact h.1 hm
      · exact haf he

/-- Collecting a sequence of fingerprint-keyed entries into a map yields
pairwise-distinct fingerprints: at most one entry per fingerprint is
retained. -/
theorem nodup_keys_collect {α : Type} (l : List (Fingerprint × α)) :
    ((collect_fp_map l).map Prod.fst).Nodup := by
  suffices h : ∀ acc : List (Fingerprint × α), (acc.map Prod.fst).Nodup →
      (((l.foldl (fun m e => insert_fp m e.1 e.2) acc)).map Prod.fst).Nodup by
    exact h [] (by simp)
  induction l with
  | nil => intro acc hacc; simpa using hacc
  | cons e rest ih =>
    intro acc hacc
    simpa using ih (insert_fp acc e.1 e.2) (nodup_keys_insert_fp acc e.1 e.2 hacc)

/-- Lookup distributes over list append, preferring the left part. -/
theorem lookup_fp_append {α : Type} (a b : List (Fingerprint × α)) (f : Fingerprint) :
    lookup_fp (a ++ b) f = (lookup_fp a f).or (lookup_fp b f) := by
  induction a with
  | nil => simp [lookup_fp]
  | cons e rest ih =>
    obtain ⟨g, w⟩ := e
    by_cases hg : g = f <;> simp [lookup_fp, hg, ih]

/-- Folding entries into a map looks up as the reversed entry sequence
followed by the accumulator: the last same-fingerprint entry wins. -/
theorem lookup_fp_foldl {α : Type} (l : List (Fingerprint × α)) (acc : List (Fingerprint × α))
    (f : Fingerprint) :
    lookup_fp (l.foldl (fun m e => insert_fp m e.1 e.2) acc) f
      = (lookup_fp l.reverse f).or (lookup_fp acc f) := by
  induction l generalizing acc with
  | nil => simp [lookup_fp]
  | cons e rest ih =>
    simp only [List.foldl_cons, List.reverse_cons]
    rw [ih, lookup_fp_append, lookup_fp_insert, Option.or_assoc]
    congr 1
    by_cases he : e.1 = f <;> simp [lookup_fp, he]

/-- Looking up the collected map finds the final same-fingerprint entry of
the sequence (the first entry of the reversed sequence). -/
theorem lookup_fp_collect {α : Type} (l : List (Fingerprint × α)) (f : Fingerprint) :
    lookup_fp (collect_fp_map l) f = lookup_fp l.reverse f := by
  have h := lookup_fp_foldl l [] f
  simpa [collect_fp_map, lookup_fp] using h

/-- C10: `derive_from_hd_keypaths` and `derive_from_tap_key_origins` consult
only the evidence re-keyed by root fingerprint; the re-keyed map carries
pairwise-distinct fingerprints — at most one (path, expected-key) pair per
fingerprint is retained — and lookup finds exactly the final same-fingerprint
entry of the iteration sequence, so earlier same-fingerprint entries are
discarded and can witness no match. -/
theorem derive_evidence_rekeyed_by_fingerprint [DecidableEq Pk] [DecidableEq XOnly] :
    (∀ (ctx : SecpCtx Key Pk XOnly) (d : Descriptor Key Pk XOnly)
        (hd_keypaths : List (Pk × (Fingerprint × DerivationPath))),
      derive_from_hd_keypaths ctx d hd_keypaths = derive_from_psbt_key_origins ctx d
        (collect_fp_map
          (hd_keypaths.map fun e => (e.2.1, (e.2.2, SinglePubKey.FullKey e.1))))) ∧
    (∀ (ctx : SecpCtx Key Pk XOnly) (d : Descriptor Key Pk XOnly)
        (tap_key_origins : List (XOnly × (List Leaf × (Fingerprint × DerivationPath)))),
      derive_from_tap_key_origins ctx d tap_key_origins = derive_from_psbt_key_origins ctx d
        (collect_fp_map
          (tap_key_origins.map fun e => (e.2.2.1, (e.2.2.2, SinglePubKey.XOnly e.1))))) ∧
    (∀ l : KeyOrigins Pk XOnly, ((collect_fp_map l).map Prod.fst).Nodup) ∧
    (∀ (l : KeyOrigins Pk XOnly) (f : Fingerprint),
      lookup_fp (collect_fp_map l) f = lookup_fp l.reverse f) :=
  ⟨fun _ _ _ => rfl, fun _ _ _ => rfl, fun l => nodup_keys_collect l,
    fun l f => lookup_fp_collect l f⟩

/-- Network validation succeeds when every key's valid-network set contains
the target. -/
theorem check_networks_ok_of_all (ops : ExternalOps Key SK Pk XOnly) (cls : ScriptClass)
    (network : Network) (ks : List (DescriptorPublicKey Key Pk XOnly))
    (h : ∀ k ∈ ks, ∃ nets, ops.extract_networks cls k = .ok nets ∧ network ∈ nets) :
    check_networks ops cls network ks = .ok () := by
  induction ks with
  | nil => rfl
  | cons k rest ih =>
    obtain ⟨nets, he, hm⟩ := h k (List.mem_cons_self k rest)
    simp only [check_networks, he, if_pos hm]
    exact ih fun k' hk' => h k' (List.mem_cons_of_mem k hk')

/-- Network validation short-circuits with `InvalidNetwork` at the first key
whose valid-network set lacks the target, whatever follows it. -/
theorem check_networks_fail_first (ops : ExternalOps Key SK Pk XOnly) (cls : ScriptClass)
    (network : Network) (pre : List (DescriptorPublicKey Key Pk XOnly))
    (k : DescriptorPublicKey Key Pk XOnly) (post : List (DescriptorPublicKey Key Pk XOnly))
    (hpre : ∀ k' ∈ pre, ∃ nets, ops.extract_networks cls k' = .ok nets ∧ network ∈ nets)
    (nets0 : List Network) (hk : ops.extract_networks cls k = .ok nets0)
    (hnot : network ∉ nets0) :
    check_networks ops cls network (pre ++ k :: post)
      = .err (DescriptorError.Key KeyError.InvalidNetwork) := by
  induction pre with
  | nil => simp [check_networks, hk, hnot]
  | cons a rest ih =>
    obtain ⟨nets, he, hm⟩ := hpre a (List.mem_cons_self a rest)
    simp only [List.cons_append, check_networks, he, if_pos hm]
    exact ih fun k' hk' => hpre k' (List.mem_cons_of_mem a hk')

/-- C7: `into_wallet_descriptor` on a `(descriptor, key-map)` pair only
validates — every success returns exactly the input pair, it succeeds when
every key's valid-network set contains the target, and it short-circuits
with `InvalidNetwork` (wrapped as a key error) at the first key whose set
lacks the target. -/
theorem into_wallet_descriptor_pair_validates_only (ops : ExternalOps Key SK Pk XOnly)
    (d : Descriptor Key Pk XOnly) (keymap : KeyMap Key SK Pk XOnly) (network : Network) :
    (∀ out, into_wallet_descriptor_pair ops d keymap network = .ok out → out = (d, keymap)) ∧
    (∀ pre k post, d.keys = pre ++ k :: post →
      (∀ k' ∈ pre, ∃ nets,
        ops.extract_networks (script_class d) k' = .ok nets ∧ network ∈ nets) →
      ∀ nets0, ops.extract_networks (script_class d) k = .ok nets0 → network ∉ nets0 →
        into_wallet_descriptor_pair ops d keymap network
          = .err (DescriptorError.Key KeyError.InvalidNetwork)) ∧
    ((∀ k ∈ d.keys, ∃ nets,
        ops.extract_networks (script_class d) k = .ok nets ∧ network ∈ nets) →
      into_wallet_descriptor_pair ops d keymap network = .ok (d, keymap)) := by
  refine ⟨?_, ?_, ?_⟩
  · intro out h
    unfold into_wallet_descriptor_pair at h
    cases hcn : check_networks ops (script_class d) network d.keys with
    | err e => rw [hcn] at h; exact absurd h (by simp)
    | ok u => rw [hcn] at h; simp at h; exact h.symm
  · intro pre k post hkeys hpre nets0 hk hnot
    unfold into_wallet_descriptor_pair
    rw [hkeys, check_networks_fail_first ops (script_class d) network pre k post hpre nets0
      hk hnot]
  · intro h
    unfold into_wallet_descriptor_pair
    rw [check_networks_ok_of_all ops (script_class d) network d.keys h]

/-- Witness for the C7 theorem: a pair whose only key is valid on mainnet
only is rejected for testnet with `InvalidNetwork`. -/
theorem into_wallet_descriptor_pair_validates_only_witness :
    into_wallet_descriptor_pair ops7 d7 [] Network.testnet
      = .err (DescriptorError.Key KeyError.InvalidNetwork) :=
  (into_wallet_descriptor_pair_validates_only ops7 d7 [] Network.testnet).2.1
    [] (.Single none (.FullKey [1])) [] rfl (by simp) [Network.bitcoin] rfl (by decide)

/-- Splitting at the separator recovers the parts of a separator-free prefix
followed by the separator and a suffix. -/
theorem split_once_append (a b : List Char) (h : '#' ∉ a) :
    split_once '#' (a ++ '#' :: b) = some (a, b) := by
  induction a with
  | nil => simp [split_once]
  | cons c rest ih =>
    simp only [List.mem_cons, not_or] at h
    have hc : ¬c = '#' := fun e => h.1 e.symm
    simp only [List.cons_append, split_once, if_neg hc, List.append_eq, ih h.2]

/-- C8: the textual form of a canonical descriptor — its printed expression
followed by `#` and the checksum of that expression — canonicalizes back, on
the descriptor's own network, to exactly the same descriptor and key-map. -/
theorem into_wallet_descriptor_str_roundtrip (ops : ExternalOps Key SK Pk XOnly)
    (network : Network) (d : Descriptor Key Pk XOnly) (keymap : KeyMap Key SK Pk XOnly)
    (c : List Char)
    (hnh : '#' ∉ ops.print_descriptor d)
    (hck : ops.calc_checksum (ops.print_descriptor d) = .ok c)
    (hparse : ops.parse_descriptor (ops.print_descriptor d) = .ok (d, keymap))
    (hnet : ∀ k ∈ d.keys, ∃ nets,
      ops.extract_networks (script_class d) k = .ok nets ∧ network ∈ nets) :
    into_wallet_descriptor_str ops (ops.print_descriptor d ++ '#' :: c) network
      = .ok (d, keymap) := by
  simp only [into_wallet_descriptor_str, split_once_append _ _ hnh, hck]
  rw [if_neg (by simp)]
  simp only [hparse]
  unfold into_wallet_descriptor_pair
  rw [check_networks_ok_of_all ops (script_class d) network d.keys hnet]

/-- Witness for the C8 theorem at a concrete one-descriptor grammar. -/
theorem into_wallet_descriptor_str_roundtrip_witness :
    into_wallet_descriptor_str ops0 (['d'] ++ '#' :: ['c']) Network.testnet = .ok (d8, []) :=
  into_wallet_descriptor_str_roundtrip ops0 Network.testnet d8 [] ['c'] (by decide) rfl rfl
    (fun k hk => absurd hk (List.not_mem_nil k))

/-- Deriving a wildcard-free, non-multipath descriptor at index 0 always
succeeds. -/
theorem at_derivation_index_zero (d : Descriptor Key Pk XOnly)
    (hw : d.has_wildcard = false) (hm : d.is_multipath = false) :
    d.at_derivation_index 0 = some ⟨d, 0⟩ := by
  unfold Descriptor.at_derivation_index
  split
  · rename_i hcontra
    exfalso
    rw [List.any_eq_true] at hcontra
    obtain ⟨k, hk, hpk⟩ := hcontra
    unfold Descriptor.has_wildcard at hw
    rw [List.any_eq_false] at hw
    unfold Descriptor.is_multipath at hm
    rw [List.any_eq_false] at hm
    have hwk := hw k hk
    have hmk := hm k hk
    cases k with
    | Single o s => simp at hpk
    | XPub x =>
      simp only [DescriptorPublicKey.has_wildcard] at hwk
      simp at hpk
      simp [hpk] at hwk
    | MultiXPub m => exact hmk rfl
  · rfl

/-- C5 (amended): for a descriptor with a wildcard, when neither HD-keypath
nor taproot matching succeeds the function returns `None` — never an error
and never a guessed index; for a wildcard-free, **non-multipath** descriptor
it derives at index 0 and accepts exactly when the structural class and the
evidence agree as the spec describes (`spec_fallback_accepts`), returning
`None` for every other combination. -/
theorem derive_from_psbt_input_fallback [DecidableEq Pk] [DecidableEq XOnly]
    [DecidableEq Script] (ctx : SecpCtx Key Pk XOnly)
    (gops : GrammarOps Key Pk XOnly Script) (d : Descriptor Key Pk XOnly)
    (psbt_input : PsbtInput Pk XOnly Script Leaf) (utxo : Option (TxOut Script))
    (hhd : derive_from_hd_keypaths ctx d psbt_input.bip32_derivation = .ok none)
    (htap : derive_from_tap_key_origins ctx d psbt_input.tap_key_origins = .ok none) :
    (d.has_wildcard = true → derive_from_psbt_input ctx gops d psbt_input utxo = .ok none) ∧
    (d.has_wildcard = false → d.is_multipath = false →
      (derive_from_psbt_input ctx gops d psbt_input utxo = .ok (some ⟨d, 0⟩) ∨
        derive_from_psbt_input ctx gops d psbt_input utxo = .ok none) ∧
      (derive_from_psbt_input ctx gops d psbt_input utxo = .ok (some ⟨d, 0⟩) ↔
        spec_fallback_accepts gops d psbt_input utxo)) := by
  constructor
  · intro hw
    simp [derive_from_psbt_input, hhd, htap, hw]
  · intro hw hm
    have hat := at_derivation_index_zero d hw hm
    cases hdt : d.desc_type
    · rcases hr : psbt_input.redeem_script with _ | rs
      · simp [derive_from_psbt_input, hhd, htap, hw, hat, Derived.desc_type, hdt,
          spec_fallback_accepts, hr]
      · by_cases hs : gops.explicit_script (⟨d, 0⟩ : Derived Key Pk XOnly) = rs <;>
          simp [derive_from_psbt_input, hhd, htap, hw, hat, Derived.desc_type, hdt,
            spec_fallback_accepts, hr, hs]
    · rcases hr : psbt_input.redeem_script with _ | rs
      · simp [derive_from_psbt_input, hhd, htap, hw, hat, Derived.desc_type, hdt,
          spec_fallback_accepts, hr]
      · by_cases hs : gops.explicit_script (⟨d, 0⟩ : Derived Key Pk XOnly) = rs <;>
          simp [derive_from_psbt_input, hhd, htap, hw, hat, Derived.desc_type, hdt,
            spec_fallback_accepts, hr, hs]
    · rcases utxo with _ | u
      · simp [derive_from_psbt_input, hhd, htap, hw, hat, Derived.desc_type, hdt,
          spec_fallback_accepts]
      · by_cases hs : gops.script_pubkey (⟨d, 0⟩ : Derived Key Pk XOnly) = u.script_pubkey <;>
          simp [derive_from_psbt_input, hhd, htap, hw, hat, Derived.desc_type, hdt,
            spec_fallback_accepts, hs]
    · rcases utxo with _ | u
      · simp [derive_from_psbt_input, hhd, htap, hw, hat, Derived.desc_type, hdt,
          spec_fallback_accepts]
      · by_cases hs : gops.script_pubkey (⟨d, 0⟩ : Derived Key Pk XOnly) = u.script_pubkey <;>
          simp [derive_from_psbt_input, hhd, htap, hw, hat, Derived.desc_type, hdt,
            spec_fallback_accepts, hs]
    · rcases utxo with _ | u
      · simp [derive_from_psbt_input, hhd, htap, hw, hat, Derived.desc_type, hdt,
          spec_fallback_accepts]
      · by_cases hs : gops.script_pubkey (⟨d, 0⟩ : Derived Key Pk XOnly) = u.script_pubkey <;>
          simp [derive_from_psbt_input, hhd, htap, hw, hat, Derived.desc_type, hdt,
            spec_fallback_accepts, hs]
    · rcases hws : psbt_input.witness_script with _ | ws
      · simp [derive_from_psbt_input, hhd, htap, hw, hat, Derived.desc_type, hdt,
          spec_fallback_accepts, hws]
      · by_cases hs : gops.explicit_script (⟨d, 0⟩ : Derived Key Pk XOnly) = ws <;>
          simp [derive_from_psbt_input, hhd, htap, hw, hat, Derived.desc_type, hdt,
            spec_fallback_accepts, hws, hs]
    · rcases hws : psbt_input.witness_script with _ | ws
      · simp [derive_from_psbt_input, hhd, htap, hw, hat, Derived.desc_type, hdt,
          spec_fallback_accepts, hws]
      · by_cases hs : gops.explicit_script (⟨d, 0⟩ : Derived Key Pk XOnly) = ws <;>
          simp [derive_from_psbt_input, hhd, htap, hw, hat, Derived.desc_type, hdt,
            spec_fallback_accepts, hws, hs]
    · rcases hr : psbt_input.redeem_script with _ | rs
      · simp [derive_from_psbt_input, hhd, htap, hw, hat, Derived.desc_type, hdt,
          spec_fallback_accepts, hr]
      · by_cases hs : gops.explicit_script (⟨d, 0⟩ : Derived Key Pk XOnly) = rs <;>
          simp [derive_from_psbt_input, hhd, htap, hw, hat, Derived.desc_type, hdt,
            spec_fallback_accepts, hr, hs]
    · rcases hws : psbt_input.witness_script with _ | ws
      · simp [derive_from_psbt_input, hhd, htap, hw, hat, Derived.desc_type, hdt,
          spec_fallback_accepts, hws]
      · by_cases hs : gops.explicit_script (⟨d, 0⟩ : Derived Key Pk XOnly) = ws <;>
          simp [derive_from_psbt_input, hhd, htap, hw, hat, Derived.desc_type, hdt,
            spec_fallback_accepts, hws, hs]
    · rcases hws : psbt_input.witness_script with _ | ws
      · simp [derive_from_psbt_input, hhd, htap, hw, hat, Derived.desc_type, hdt,
          spec_fallback_accepts, hws]
      · by_cases hs : gops.explicit_script (⟨d, 0⟩ : Derived Key Pk XOnly) = ws <;>
          simp [derive_from_psbt_input, hhd, htap, hw, hat, Derived.desc_type, hdt,
            spec_fallback_accepts, hws, hs]
    · rcases utxo with _ | u
      · simp [derive_from_psbt_input, hhd, htap, hw, hat, Derived.desc_type, hdt,
          spec_fallback_accepts]
      · by_cases hs : gops.script_pubkey (⟨d, 0⟩ : Derived Key Pk XOnly) = u.script_pubkey <;>
          simp [derive_from_psbt_input, hhd, htap, hw, hat, Derived.desc_type, hdt,
            spec_fallback_accepts, hs]

/-- C5 (counterexample): a wildcard-free multipath descriptor of a single-key
class with a matching spent output makes `derive_from_psbt_input` panic in
the fixed-index fallback instead of accepting at index 0 or returning
`None`. -/
theorem derive_from_psbt_input_multipath_counterexample :
    d5c.has_wildcard = false ∧ d5c.desc_type = DescriptorType.Wpkh ∧
      gops0.script_pubkey ⟨d5c, 0⟩ = u0.script_pubkey ∧
      derive_from_psbt_input ctx0 gops0 d5c in0 (some u0) = .err "0 is not hardened" := by
  refine ⟨by decide, rfl, rfl, rfl⟩

/-- Witness for the amended C5 theorem: a wildcard-free single-key descriptor
with a matching spent output is accepted at index 0 via the fallback. -/
theorem derive_from_psbt_input_fallback_witness :
    derive_from_psbt_input ctx0 gops0 d5w in0 (some u0) = .ok (some ⟨d5w, 0⟩) :=
  ((derive_from_psbt_input_fallback ctx0 gops0 d5w in0 (some u0) rfl rfl).2 rfl rfl).2.mpr
    (Or.inl ⟨Or.inr (Or.inl rfl), u0, rfl, rfl⟩)

/-- C6 (amended): template canonicalization rejects a target network outside
the carried set with `InvalidNetwork` and otherwise succeeds, retagging every
single-path extended public key in the descriptor with the target network and
retagging both halves of every (xpub, xprv) key-map pair and every single
secret key; multipath extended keys and all other key kinds pass through
unchanged. -/
theorem into_wallet_descriptor_template_retargets (d : Descriptor Key Pk XOnly)
    (keymap : KeyMap Key SK Pk XOnly) (networks : List Network) (network : Network) :
    (network ∉ networks →
      into_wallet_descriptor_template (d, keymap, networks) network
        = .err (DescriptorError.Key KeyError.InvalidNetwork)) ∧
    (network ∈ networks →
      (∀ e, into_wallet_descriptor_template (d, keymap, networks) network ≠ .err e) ∧
      (∀ d' km',
        into_wallet_descriptor_template (d, keymap, networks) network = .ok (d', km') →
        d'.desc_type = d.desc_type ∧ d'.sanity_error = d.sanity_error ∧
        d'.keys.length = d.keys.length ∧ km'.length = keymap.length ∧
        (∀ (i : Nat) (x : DescriptorXKey Key),
          d.keys[i]? = some (DescriptorPublicKey.XPub x) →
          d'.keys[i]? = some (DescriptorPublicKey.XPub
            { x with xkey := { x.xkey with network := network.kind } })) ∧
        (∀ (i : Nat) (k : DescriptorPublicKey Key Pk XOnly), d.keys[i]? = some k →
          (∀ x, k ≠ DescriptorPublicKey.XPub x) → d'.keys[i]? = some k) ∧
        (∀ (i : Nat) (x : DescriptorXKey Key) (y : DescriptorXKey SK),
          keymap[i]? = some (DescriptorPublicKey.XPub x, DescriptorSecretKey.XPrv y) →
          km'[i]? = some (DescriptorPublicKey.XPub
              { x with xkey := { x.xkey with network := network.kind } },
            DescriptorSecretKey.XPrv
              { y with xkey := { y.xkey with network := network.kind } })) ∧
        (∀ (i : Nat) (k : DescriptorPublicKey Key Pk XOnly) (sk : XKey SK),
          keymap[i]? = some (k, DescriptorSecretKey.Single sk) →
          km'[i]? = some (k, DescriptorSecretKey.Single
            { sk with network := network.kind })) ∧
        (∀ (i : Nat) (p : DescriptorPublicKey Key Pk XOnly × DescriptorSecretKey SK),
          keymap[i]? = some p →
          (∀ x y, p ≠ (DescriptorPublicKey.XPub x, DescriptorSecretKey.XPrv y)) →
          (∀ k sk, p ≠ (k, DescriptorSecretKey.Single sk)) → km'[i]? = some p))) := by
  constructor
  · intro hnot
    simp [into_wallet_descriptor_template, hnot]
  · intro hmem
    have hres : into_wallet_descriptor_template (d, keymap, networks) network
        = .ok ({ d with keys := d.keys.map (template_translate_pk network) },
          keymap.map (template_fix_pair network)) := by
      simp [into_wallet_descriptor_template, hmem]
    refine ⟨fun e he => by rw [hres] at he; exact absurd he (by simp), ?_⟩
    intro d' km' h
    rw [hres] at h
    simp only [Res.ok.injEq, Prod.mk.injEq] at h
    obtain ⟨hd', hkm'⟩ := h
    subst hd'
    subst hkm'
    refine ⟨rfl, rfl, by simp, by simp, ?_, ?_, ?_, ?_, ?_⟩
    · intro i x hx
      simp [List.getElem?_map, hx, template_translate_pk]
    · intro i k hk hnx
      cases k with
      | Single o s => simp [List.getElem?_map, hk, template_translate_pk]
      | XPub x => exact absurd rfl (hnx x)
      | MultiXPub m => simp [List.getElem?_map, hk, template_translate_pk]
    · intro i x y hx
      simp [List.getElem?_map, hx, template_fix_pair]
    · intro i k sk hk
      cases k <;> simp [List.getElem?_map, hk, template_fix_pair]
    · intro i p hp hnpair hnsingle
      obtain ⟨k, sk⟩ := p
      cases sk with
      | Single s => exact absurd rfl (hnsingle k s)
      | XPrv y =>
        cases k with
        | Single o s => simp [List.getElem?_map, hp, template_fix_pair]
        | XPub x => exact absurd rfl (hnpair x y)
        | MultiXPub m => simp [List.getElem?_map, hp, template_fix_pair]
      | MultiXPrv m =>
        cases k <;> simp [List.getElem?_map, hp, template_fix_pair]

/-- C6 (counterexample): a template whose only key is a multipath extended
public key tagged for mainnet is accepted for testnet but returned completely
unchanged — the extended-key occurrence does not receive the target network
tag. -/
theorem into_wallet_descriptor_template_multipath_counterexample :
    d6c.keys = [DescriptorPublicKey.MultiXPub m6c] ∧
      m6c.xkey.network = NetworkKind.main ∧ Network.testnet.kind = NetworkKind.test ∧
      into_wallet_descriptor_template
          (d6c, ([] : KeyMap (List Nat) Unit (List Nat) (List Nat)), [Network.testnet])
          Network.testnet
        = .ok (d6c, []) :=
  ⟨rfl, rfl, rfl, rfl⟩

/-- Witness for the amended C6 theorem: a carried-network match is not
rejected with `InvalidNetwork`. -/
theorem into_wallet_descriptor_template_retargets_witness :
    into_wallet_descriptor_template
        (d6, ([] : KeyMap (List Nat) Unit (List Nat) (List Nat)), [Network.testnet])
        Network.testnet
      ≠ .err (DescriptorError.Key KeyError.InvalidNetwork) :=
  ((into_wallet_descriptor_template_retargets d6 [] [Network.testnet] Network.testnet).2
    (by simp)).1 (DescriptorError.Key KeyError.InvalidNetwork)

/-- The matching loop reports an index only when some extended key in the
list is accepted: evidence for its root fingerprint exists, `matches`
succeeded, re-derivation succeeded and verified the expected key, and the
suffix resolves a wildcard key at that index or is empty for a fixed key. -/
theorem key_origins_loop_ok_some [DecidableEq Pk] [DecidableEq XOnly]
    (ctx : SecpCtx Key Pk XOnly) (key_origins : KeyOrigins Pk XOnly)
    (ks : List (DescriptorPublicKey Key Pk XOnly)) (i : Nat)
    (h : key_origins_loop ctx key_origins ks = .ok (some i)) :
    ∃ x, DescriptorPublicKey.XPub x ∈ ks ∧
      ∃ path expected,
        lookup_fp key_origins (x.root_fingerprint ctx) = some (path, expected) ∧
        ∃ pre, x.matches ctx (x.root_fingerprint ctx) path = some pre ∧
          ∃ dk, derive_pub ctx x.xkey.key (x.derivation_path ++ path.drop pre.length)
              = some dk ∧
            verify_derived ctx dk expected = true ∧
            ((x.wildcard ≠ Wildcard.none ∧ path.drop pre.length = [ChildNumber.normal i]) ∨
              (x.wildcard = Wildcard.none ∧ path.drop pre.length = [] ∧ i = 0)) := by
  induction ks with
  | nil => simp [key_origins_loop] at h
  | cons k rest ih =>
    cases k with
    | Single o s =>
      have hstep : key_origins_loop ctx key_origins (DescriptorPublicKey.Single o s :: rest)
          = key_origins_loop ctx key_origins rest := rfl
      rw [hstep] at h
      obtain ⟨x, hmem, hrest⟩ := ih h
      exact ⟨x, List.mem_cons_of_mem _ hmem, hrest⟩
    | MultiXPub m =>
      have hstep : key_origins_loop ctx key_origins (DescriptorPublicKey.MultiXPub m :: rest)
          = key_origins_loop ctx key_origins rest := rfl
      rw [hstep] at h
      obtain ⟨x, hmem, hrest⟩ := ih h
      exact ⟨x, List.mem_cons_of_mem _ hmem, hrest⟩
    | XPub xpub =>
      rw [key_origins_loop] at h
      cases hl : lookup_fp key_origins (xpub.root_fingerprint ctx) with
      | none =>
        simp only [hl] at h
        obtain ⟨x, hmem, hrest⟩ := ih h
        exact ⟨x, List.mem_cons_of_mem _ hmem, hrest⟩
      | some pe =>
        obtain ⟨path, expected⟩ := pe
        simp only [hl] at h
        cases hms : DescriptorXKey.matches ctx xpub (xpub.root_fingerprint ctx) path with
        | none =>
          simp only [hms] at h
          obtain ⟨x, hmem, hrest⟩ := ih h
          exact ⟨x, List.mem_cons_of_mem _ hmem, hrest⟩
        | some pre =>
          simp only [hms] at h
          cases hd : derive_pub ctx xpub.xkey.key
              (xpub.derivation_path ++ path.drop pre.length) with
          | none => simp only [hd] at h; exact absurd h (by simp)
          | some dk =>
            simp only [hd] at h
            cases hv : verify_derived ctx dk expected with
            | false =>
              simp only [hv, Bool.false_eq_true, if_false] at h
              obtain ⟨x, hmem, hrest⟩ := ih h
              exact ⟨x, List.mem_cons_of_mem _ hmem, hrest⟩
            | true =>
              simp only [hv, if_true] at h
              rcases hdp : path.drop pre.length with _ | ⟨c, ctail⟩
              · simp only [hdp, List.length_nil] at h
                rw [if_neg (by simp)] at h
                by_cases hwn : xpub.wildcard = Wildcard.none
                · rw [if_pos (show _ ∧ _ from ⟨hwn, by simp⟩)] at h
                  simp only [Res.ok.injEq, Option.some.injEq] at h
                  exact ⟨xpub, List.mem_cons_self _ _, path, expected, hl, pre, hms, dk, hd,
                    hv, Or.inr ⟨hwn, hdp, h.symm⟩⟩
                · rw [if_neg (fun hc => hwn hc.1)] at h
                  obtain ⟨x, hmem, hrest⟩ := ih h
                  exact ⟨x, List.mem_cons_of_mem _ hmem, hrest⟩
              · cases ctail with
                | nil =>
                  simp only [hdp, List.length_cons, List.length_nil] at h
                  by_cases hwn : xpub.wildcard = Wildcard.none
                  · rw [if_neg (fun hc => hc.1 hwn)] at h
                    rw [if_neg (by simp [hwn, hdp])] at h
                    obtain ⟨x, hmem, hrest⟩ := ih h
                    exact ⟨x, List.mem_cons_of_mem _ hmem, hrest⟩
                  · rw [if_pos (show _ ∧ _ from ⟨hwn, by simp⟩)] at h
                    cases c with
                    | normal j =>
                      simp only [Res.ok.injEq, Option.some.injEq] at h
                      subst h
                      exact ⟨xpub, List.mem_cons_self _ _, path, expected, hl, pre, hms, dk,
                        hd, hv, Or.inl ⟨hwn, hdp⟩⟩
                    | hardened j =>
                      simp only [] at h
                      obtain ⟨x, hmem, hrest⟩ := ih h
                      exact ⟨x, List.mem_cons_of_mem _ hmem, hrest⟩
                | cons c2 ctail2 =>
                  simp only [hdp, List.length_cons] at h
                  rw [if_neg (by simp)] at h
                  rw [if_neg (by simp [hdp])] at h
                  obtain ⟨x, hmem, hrest⟩ := ih h
                  exact ⟨x, List.mem_cons_of_mem _ hmem, hrest⟩

/-- When every extended key in the list is rejected by the evidence, the
matching loop reports no index (and does not panic). -/
theorem key_origins_loop_rejects [DecidableEq Pk] [DecidableEq XOnly]
    (ctx : SecpCtx Key Pk XOnly) (key_origins : KeyOrigins Pk XOnly)
    (ks : List (DescriptorPublicKey Key Pk XOnly))
    (h : ∀ x, DescriptorPublicKey.XPub x ∈ ks → spec_key_rejects ctx key_origins x) :
    key_origins_loop ctx key_origins ks = .ok none := by
  induction ks with
  | nil => rfl
  | cons k rest ih =>
    have hrest : ∀ x, DescriptorPublicKey.XPub x ∈ rest → spec_key_rejects ctx key_origins x :=
      fun x hx => h x (List.mem_cons_of_mem _ hx)
    cases k with
    | Single o s =>
      have hstep : key_origins_loop ctx key_origins (DescriptorPublicKey.Single o s :: rest)
          = key_origins_loop ctx key_origins rest := rfl
      rw [hstep]
      exact ih hrest
    | MultiXPub m =>
      have hstep : key_origins_loop ctx key_origins (DescriptorPublicKey.MultiXPub m :: rest)
          = key_origins_loop ctx key_origins rest := rfl
      rw [hstep]
      exact ih hrest
    | XPub xpub =>
      have hx := h xpub (List.mem_cons_self _ _)
      rw [key_origins_loop]
      rcases hx with hnone | ⟨path, expected, hl, hrej⟩
      · simp only [hnone]
        exact ih hrest
      · rcases hrej with hmn | ⟨pre, hms, dk, hd, hv⟩
        · simp only [hl, hmn]
          exact ih hrest
        · simp only [hl, hms, hd, hv, Bool.false_eq_true, if_false]
          exact ih hrest

/-- C1: `derive_from_psbt_key_origins` accepts only via a verified candidate:
whenever it returns a derived descriptor, that descriptor is the input
descriptor at an index for which some extended key of the descriptor
satisfies the spec's acceptance condition — fixed key with empty suffix, or
unhardened-wildcard key with a one-step non-hardened suffix whose
re-derivation matches the expected key byte-for-byte (so an index is never
returned on path agreement alone); and whenever every extended key is
rejected — no evidence, a path differing from the fixed prefix in more than
the final step, or a re-derived key differing from the expected key — it
returns `None`. -/
theorem derive_from_psbt_key_origins_sound [DecidableEq Pk] [DecidableEq XOnly]
    (ctx : SecpCtx Key Pk XOnly) (d : Descriptor Key Pk XOnly)
    (key_origins : KeyOrigins Pk XOnly) :
    (∀ dd, derive_from_psbt_key_origins ctx d key_origins = .ok (some dd) →
      dd.source = d ∧
        ∃ x ∈ d.get_extended_keys, spec_key_accepts ctx key_origins x dd.index) ∧
    ((∀ x ∈ d.get_extended_keys, spec_key_rejects ctx key_origins x) →
      derive_from_psbt_key_origins ctx d key_origins = .ok none) := by
  constructor
  · intro dd h
    unfold derive_from_psbt_key_origins at h
    cases hloop : key_origins_loop ctx key_origins d.keys with
    | err e => rw [hloop] at h; exact absurd h (by simp)
    | ok o =>
      cases o with
      | none => rw [hloop] at h; exact absurd h (by simp)
      | some i =>
        rw [hloop] at h
        simp only [] at h
        cases hat : d.at_derivation_index i with
        | none => rw [hat] at h; exact absurd h (by simp)
        | some derived =>
          rw [hat] at h
          simp only [Res.ok.injEq, Option.some.injEq] at h
          subst h
          unfold Descriptor.at_derivation_index at hat
          split at hat
          · exact absurd hat (by simp)
          · rename_i hfalse
            simp only [Option.some.injEq] at hat
            obtain ⟨x, hmem, path, expected, hl, pre, hms, dk, hd, hv, hcase⟩ :=
              key_origins_loop_ok_some ctx key_origins d.keys i hloop
            subst hat
            refine ⟨rfl, x, List.mem_filterMap.mpr ⟨DescriptorPublicKey.XPub x, hmem, rfl⟩, ?_⟩
            have hnh : x.wildcard ≠ Wildcard.hardened := by
              intro hh
              exact hfalse (List.any_eq_true.mpr
                ⟨DescriptorPublicKey.XPub x, hmem, by simp [hh]⟩)
            refine ⟨path, expected, hl, pre, hms, dk, hd, hv, ?_⟩
            rcases hcase with ⟨hne, hdp⟩ | ⟨hwn, hdp, hzero⟩
            · cases hwc : x.wildcard with
              | none => exact absurd hwc hne
              | hardened => exact absurd hwc hnh
              | unhardened => exact Or.inl ⟨rfl, hdp⟩
            · exact Or.inr ⟨hwn, hdp, hzero⟩
  · intro hrej
    unfold derive_from_psbt_key_origins
    rw [key_origins_loop_rejects ctx key_origins d.keys
      (fun x hx => hrej x (List.mem_filterMap.mpr ⟨DescriptorPublicKey.XPub x, hx, rfl⟩))]

/-- Witness for the C1 theorem: with empty evidence every key is rejected and
the matcher returns `None`. -/
theorem derive_from_psbt_key_origins_sound_witness :
    derive_from_psbt_key_origins ctx0 d1 ([] : KeyOrigins (List Nat) (List Nat)) = .ok none :=
  (derive_from_psbt_key_origins_sound ctx0 d1 []).2 (fun _ _ => Or.inl rfl)

end Theorems

end Bdk
